import Mathlib

/-!
Shallow embedding of the core rendering pipeline of a minimal ray tracer
(`src/main.rs`). `f32` arithmetic is idealised as real arithmetic; each Rust
function is rendered as a Lean definition with matching name and structure,
and the intermediate `let` bindings of `Sphere::ray_intersect` appear as
named definitions so the theorems can speak about them.
-/

/-- `nalgebra::Vector3<f32>`, idealised over `ℝ`. -/
structure Vec3 where
  x : ℝ
  y : ℝ
  z : ℝ


def Vec3.add (a b : Vec3) : Vec3 := ⟨a.x + b.x, a.y + b.y, a.z + b.z⟩

def Vec3.sub (a b : Vec3) : Vec3 := ⟨a.x - b.x, a.y - b.y, a.z - b.z⟩

instance : Add Vec3 := ⟨Vec3.add⟩

instance : Sub Vec3 := ⟨Vec3.sub⟩

/-- Multiplication of a vector by a scalar (`Vector3<f32> * f32`). -/
def Vec3.smul (v : Vec3) (t : ℝ) : Vec3 := ⟨v.x * t, v.y * t, v.z * t⟩

/-- `Vector3::dot`. -/
def Vec3.dot (a b : Vec3) : ℝ := a.x * b.x + a.y * b.y + a.z * b.z

/-- `Vector3::norm` (Euclidean). -/
noncomputable def Vec3.norm (v : Vec3) : ℝ := Real.sqrt (v.dot v)

/-- `Vector3::normalize`: division of every component by the norm. -/
noncomputable def Vec3.normalize (v : Vec3) : Vec3 := v.smul (1 / v.norm)

/-- `Vector3::repeat`: all three components equal to the given scalar. -/
def Vec3.repeatv (t : ℝ) : Vec3 := ⟨t, t, t⟩

/-- `Vector3::zeros`. -/
def Vec3.zero : Vec3 := ⟨0, 0, 0⟩

@[simp] lemma Vec3.add_mk (a b c d e f : ℝ) :
    (Vec3.mk a b c + Vec3.mk d e f) = Vec3.mk (a + d) (b + e) (c + f) := rfl

@[simp] lemma Vec3.sub_mk (a b c d e f : ℝ) :
    (Vec3.mk a b c - Vec3.mk d e f) = Vec3.mk (a - d) (b - e) (c - f) := rfl

@[simp] lemma Vec3.smul_mk (a b c t : ℝ) :
    (Vec3.mk a b c).smul t = Vec3.mk (a * t) (b * t) (c * t) := rfl

@[simp] lemma Vec3.dot_mk (a b c d e f : ℝ) :
    (Vec3.mk a b c).dot (Vec3.mk d e f) = a * d + b * e + c * f := rfl

lemma Vec3.dot_self_nonneg (v : Vec3) : 0 ≤ v.dot v := by
  have := sq_nonneg v.x
  have := sq_nonneg v.y
  have := sq_nonneg v.z
  simp only [Vec3.dot]
  nlinarith

lemma Vec3.norm_nonneg (v : Vec3) : 0 ≤ v.norm := Real.sqrt_nonneg _

lemma Vec3.norm_sq (v : Vec3) : v.norm * v.norm = v.dot v :=
  Real.mul_self_sqrt v.dot_self_nonneg

lemma Vec3.norm_eq_zero_iff (v : Vec3) : v.norm = 0 ↔ v = Vec3.mk 0 0 0 := by
  obtain ⟨a, b, c⟩ := v
  simp only [Vec3.norm, Vec3.dot, Real.sqrt_eq_zero (by nlinarith [sq_nonneg a, sq_nonneg b, sq_nonneg c] : (0:ℝ) ≤ a * a + b * b + c * c), Vec3.mk.injEq]
  constructor
  · intro h
    refine ⟨?_, ?_, ?_⟩ <;> nlinarith [sq_nonneg a, sq_nonneg b, sq_nonneg c]
  · rintro ⟨rfl, rfl, rfl⟩
    ring

lemma Vec3.norm_pos (v : Vec3) (h : v ≠ Vec3.mk 0 0 0) : 0 < v.norm := by
  rcases lt_or_eq_of_le v.norm_nonneg with h' | h'
  · exact h'
  · exact absurd (v.norm_eq_zero_iff.mp h'.symm) h

lemma Vec3.norm_smul (v : Vec3) (t : ℝ) : (v.smul t).norm = |t| * v.norm := by
  obtain ⟨a, b, c⟩ := v
  simp only [Vec3.norm, Vec3.smul_mk, Vec3.dot_mk]
  rw [show a * t * (a * t) + b * t * (b * t) + c * t * (c * t)
        = (t * t) * (a * a + b * b + c * c) by ring,
    Real.sqrt_mul (mul_self_nonneg t), Real.sqrt_mul_self_eq_abs]

lemma Vec3.normalize_norm (v : Vec3) (h : v ≠ Vec3.mk 0 0 0) : v.normalize.norm = 1 := by
  have hpos := v.norm_pos h
  simp only [Vec3.normalize, Vec3.norm_smul, abs_of_pos (by positivity : (0:ℝ) < 1 / v.norm)]
  field_simp

lemma Vec3.normalize_dot_self (v : Vec3) (h : v ≠ Vec3.mk 0 0 0) :
    v.normalize.dot v.normalize = 1 := by
  have h1 := v.normalize_norm h
  have h2 := v.normalize.norm_sq
  rw [h1] at h2
  linarith

lemma Vec3.sub_eq_zero_iff (a b : Vec3) : a - b = Vec3.mk 0 0 0 ↔ a = b := by
  obtain ⟨a1, a2, a3⟩ := a
  obtain ⟨b1, b2, b3⟩ := b
  simp only [Vec3.sub_mk, Vec3.mk.injEq]
  constructor
  · rintro ⟨h1, h2, h3⟩
    exact ⟨by linarith, by linarith, by linarith⟩
  · rintro ⟨rfl, rfl, rfl⟩
    exact ⟨by ring, by ring, by ring⟩

/-- Helper for evaluating square roots at concrete perfect squares. -/
lemma sqrt_eval {a b : ℝ} (hb : 0 ≤ b) (h : b * b = a) : Real.sqrt a = b := by
  rw [← h]
  exact Real.sqrt_mul_self hb

/-- `struct Material`. -/
structure Material where
  diffuse_color : Vec3


/-- `Material::diffuse`. -/
def Material.diffuse (m : Material) : Vec3 := m.diffuse_color

/-- `struct Light`. -/
structure Light where
  position : Vec3
  intensity : ℝ

/-- `Light::pos`. -/
def Light.pos (l : Light) : Vec3 := l.position

/-- `struct Intersection`. -/
structure Intersection where
  point : Vec3
  distance : ℝ
  material : Material

/-- `struct Sphere`. -/
structure Sphere where
  center : Vec3
  radius : ℝ
  material : Material

/-- `Light::diffuse_for_intersection`:
`intensity * f32::max(0.0, ((pos - point).normalize() * distance).norm())`. -/
noncomputable def Light.diffuse_for_intersection (l : Light) (intersection : Intersection) : ℝ :=
  l.intensity * max 0 (((l.pos - intersection.point).normalize.smul intersection.distance).norm)

/-- `let dir_normalized = direction.normalize()` in `Sphere::ray_intersect`. -/
noncomputable def dir_normalized (direction : Vec3) : Vec3 := direction.normalize

/-- `let start_to_center = self.center - origin` in `Sphere::ray_intersect`. -/
def start_to_center (s : Sphere) (origin : Vec3) : Vec3 := s.center - origin

/-- `let projection = start_to_center.dot(&dir_normalized)` in `Sphere::ray_intersect`. -/
noncomputable def projection (s : Sphere) (origin direction : Vec3) : ℝ :=
  (start_to_center s origin).dot (dir_normalized direction)

/-- `let closest_point = origin + dir_normalized * projection` in `Sphere::ray_intersect`. -/
noncomputable def closest_point (s : Sphere) (origin direction : Vec3) : Vec3 :=
  origin + (dir_normalized direction).smul (projection s origin direction)

/-- `let distance = (closest_point - self.center).norm()` in `Sphere::ray_intersect`. -/
noncomputable def sphere_distance (s : Sphere) (origin direction : Vec3) : ℝ :=
  (closest_point s origin direction - s.center).norm

/-- `Sphere::ray_intersect`: hit iff the closest point of the line to the
center lies within the radius. -/
noncomputable def Sphere.ray_intersect (s : Sphere) (origin direction : Vec3) :
    Option Intersection :=
  if sphere_distance s origin direction ≤ s.radius then
    some ⟨closest_point s origin direction, sphere_distance s origin direction, s.material⟩
  else
    none

/-- The body of the fold in `scene_intersect`, verbatim: note that both arms
of the inner match return `Some(intersection)`. -/
noncomputable def nearest_step (origin direction : Vec3)
    (nearest : Option Intersection) (sphere : Sphere) : Option Intersection :=
  match sphere.ray_intersect origin direction with
  | some intersection =>
    match nearest with
    | some nearest' =>
      if intersection.distance < nearest'.distance then some intersection else some intersection
    | none => some intersection
  | none => nearest

/-- `let nearest = spheres.iter().fold(None, ...)` in `scene_intersect`. -/
noncomputable def nearest_candidate (origin direction : Vec3) (spheres : List Sphere) :
    Option Intersection :=
  spheres.foldl (nearest_step origin direction) none

/-- `scene_intersect`: the fold above followed by the 1000.0 view-distance cutoff. -/
noncomputable def scene_intersect (origin direction : Vec3) (spheres : List Sphere) :
    Option Intersection :=
  match nearest_candidate origin direction spheres with
  | some intersection => if intersection.distance < 1000 then some intersection else none
  | none => none

/-- The fold accumulating `diffuse_intensity` in `cast_ray`. -/
noncomputable def diffuse_total (lights : List Light) (intersection : Intersection) : ℝ :=
  lights.foldl (fun acc light => acc + light.diffuse_for_intersection intersection) 0

/-- `cast_ray`. -/
noncomputable def cast_ray (origin direction : Vec3) (spheres : List Sphere)
    (lights : List Light) : Option Vec3 :=
  match scene_intersect origin direction spheres with
  | some intersection =>
    some (intersection.material.diffuse + Vec3.repeatv (diffuse_total lights intersection))
  | none => none

/-- `f32::clamp` (for `lo ≤ hi`). -/
def fclamp (v lo hi : ℝ) : ℝ := min (max v lo) hi

/-- `vec_to_rgb`: clamp each channel to `[0,1]`, scale by 255, truncate
(`as u8`; the clamped value is non-negative so truncation is the floor). -/
noncomputable def vec_to_rgb (v : Vec3) : ℤ × ℤ × ℤ :=
  (⌊255 * fclamp v.x 0 1⌋, ⌊255 * fclamp v.y 0 1⌋, ⌊255 * fclamp v.z 0 1⌋)

/-- The ray direction generated in `render` for pixel column `i`, row `j`
(width = height = 256, fov = π/3, camera at the origin looking down -z). -/
noncomputable def ray_dir (i j : ℕ) : Vec3 :=
  Vec3.normalize
    ⟨(2 * ((i : ℝ) + 0.5) / 256 - 1) * Real.tan (Real.pi / 3 / 2) * (256 / 256),
     -(2 * ((j : ℝ) + 0.5) / 256 - 1) * Real.tan (Real.pi / 3 / 2),
     -1⟩

/-- The byte triple `render` pushes for pixel `(i, j)`: the shaded color if
the ray hits, otherwise the background gradient `(j/h, i/w, (i+j)/(h+w))`. -/
noncomputable def render_pixel (spheres : List Sphere) (lights : List Light) (i j : ℕ) :
    ℤ × ℤ × ℤ :=
  match cast_ray Vec3.zero (ray_dir i j) spheres lights with
  | some v => vec_to_rgb v
  | none => vec_to_rgb ⟨(j : ℝ) / 256, (i : ℝ) / 256, ((i : ℝ) + (j : ℝ)) / (256 + 256)⟩

/-- The flat row-major pixel buffer built by `render` (r, g, b per pixel,
row outer, column inner). -/
noncomputable def render_buffer (spheres : List Sphere) (lights : List Light) : List ℤ :=
  (List.range 256).flatMap fun j =>
    (List.range 256).flatMap fun i =>
      [(render_pixel spheres lights i j).1,
       (render_pixel spheres lights i j).2.1,
       (render_pixel spheres lights i j).2.2]

/-- Evaluate the norm of a concrete vector at a perfect square. -/
lemma norm_mk_eval (a b c r : ℝ) (hr : 0 ≤ r) (h : r * r = a * a + b * b + c * c) :
    Vec3.norm ⟨a, b, c⟩ = r := by
  simp only [Vec3.norm, Vec3.dot_mk]
  exact sqrt_eval hr h

/-- Evaluate normalization of a concrete vector at a perfect square. -/
lemma normalize_mk_eval (a b c r : ℝ) (hr : 0 < r) (h : r * r = a * a + b * b + c * c) :
    Vec3.normalize ⟨a, b, c⟩ = ⟨a / r, b / r, c / r⟩ := by
  simp only [Vec3.normalize, norm_mk_eval a b c r hr.le h, Vec3.smul_mk, mul_one_div]

/-- Evaluation rule for `Sphere::ray_intersect` in the hit case. -/
lemma ray_intersect_eval (s : Sphere) (o d n c cp : Vec3) (r dist : ℝ) (m : Material)
    (hn : dir_normalized d = n) (hc : s.center = c) (hr : s.radius = r)
    (hm : s.material = m)
    (hcp : o + n.smul ((c - o).dot n) = cp)
    (hdist : (cp - c).norm = dist)
    (hle : dist ≤ r) :
    s.ray_intersect o d = some ⟨cp, dist, m⟩ := by
  have h1 : projection s o d = (c - o).dot n := by
    rw [projection, start_to_center, hn, hc]
  have h2 : closest_point s o d = cp := by
    rw [closest_point, hn, h1, hcp]
  have h3 : sphere_distance s o d = dist := by
    rw [sphere_distance, h2, hc, hdist]
  rw [Sphere.ray_intersect, if_pos (by rw [h3, hr]; exact hle), h2, h3, hm]

/-- Scalar form of the closest-approach minimality: with a unit direction
`(nx, ny, nz)` and `p` the projection of `(c - o)` onto it, the point at
parameter `p` is at least as close to `c` as the point at any parameter `t`. -/
lemma line_min_scalar (ox oy oz cx cy cz nx ny nz t p : ℝ)
    (hnn : nx * nx + ny * ny + nz * nz = 1)
    (hp : p = (cx - ox) * nx + (cy - oy) * ny + (cz - oz) * nz) :
    (ox + nx * p - cx) * (ox + nx * p - cx) + (oy + ny * p - cy) * (oy + ny * p - cy)
      + (oz + nz * p - cz) * (oz + nz * p - cz)
    ≤ (ox + nx * t - cx) * (ox + nx * t - cx) + (oy + ny * t - cy) * (oy + ny * t - cy)
      + (oz + nz * t - cz) * (oz + nz * t - cz) := by
  have hid : ((ox + nx * t - cx) * (ox + nx * t - cx) + (oy + ny * t - cy) * (oy + ny * t - cy)
        + (oz + nz * t - cz) * (oz + nz * t - cz))
      - ((ox + nx * p - cx) * (ox + nx * p - cx) + (oy + ny * p - cy) * (oy + ny * p - cy)
        + (oz + nz * p - cz) * (oz + nz * p - cz))
      = (t - p) ^ 2 + (t ^ 2 - p ^ 2) * ((nx * nx + ny * ny + nz * nz) - 1)
        + 2 * (t - p) * (p - ((cx - ox) * nx + (cy - oy) * ny + (cz - oz) * nz)) := by
    ring
  rw [hnn, ← hp] at hid
  simp only [sub_self, mul_zero, add_zero] at hid
  nlinarith [sq_nonneg (t - p), hid]

/-- The code's `closest_point` minimizes the distance to the center over the
whole line `origin + t • dir_normalized`. -/
lemma closest_point_min (s : Sphere) (o d : Vec3) (hd : d ≠ Vec3.mk 0 0 0) (t : ℝ) :
    sphere_distance s o d ≤ ((o + (dir_normalized d).smul t) - s.center).norm := by
  have hnn : (dir_normalized d).dot (dir_normalized d) = 1 :=
    Vec3.normalize_dot_self d hd
  rw [sphere_distance, closest_point, projection, start_to_center, Vec3.norm, Vec3.norm]
  apply Real.sqrt_le_sqrt
  generalize dir_normalized d = n at hnn ⊢
  obtain ⟨nx, ny, nz⟩ := n
  obtain ⟨ox, oy, oz⟩ := o
  obtain ⟨cx, cy, cz⟩ := s.center
  simp only [Vec3.sub_mk, Vec3.smul_mk, Vec3.add_mk, Vec3.dot_mk] at hnn ⊢
  linarith [line_min_scalar ox oy oz cx cy cz nx ny nz t
    ((cx - ox) * nx + (cy - oy) * ny + (cz - oz) * nz) hnn rfl]

/-- Claim C3: for every sphere and every ray with non-zero direction,
`ray_intersect` returns `some` iff the distance from the center to the closest
point of the infinite line (through the origin, along the normalized
direction) is at most the radius; the `distance` field of the returned
`Intersection` is that perpendicular miss-distance, which indeed minimizes
the distance to the center over the whole line. -/
theorem ray_intersect_iff_close (s : Sphere) (o d : Vec3) (hd : d ≠ Vec3.mk 0 0 0) :
    ((s.ray_intersect o d).isSome ↔ sphere_distance s o d ≤ s.radius) ∧
    (∀ i, s.ray_intersect o d = some i → i.distance = sphere_distance s o d) ∧
    (∀ t : ℝ, sphere_distance s o d ≤ ((o + (dir_normalized d).smul t) - s.center).norm) := by
  refine ⟨?_, ?_, closest_point_min s o d hd⟩
  · rw [Sphere.ray_intersect]
    split_ifs with h <;> simp [h]
  · intro i hi
    rw [Sphere.ray_intersect] at hi
    split_ifs at hi with h
    · simp only [Option.some.injEq] at hi
      subst hi
      rfl

/-- Witness for C3 at a concrete sphere and ray. -/
theorem ray_intersect_iff_close_witness :
    (Vec3.mk 0 0 (-1) ≠ Vec3.mk 0 0 0) ∧
    ((((Sphere.mk (Vec3.mk 0 0 (-5)) 1 ⟨Vec3.mk 0 0 0⟩).ray_intersect
        (Vec3.mk 0 0 0) (Vec3.mk 0 0 (-1))).isSome ↔
      sphere_distance (Sphere.mk (Vec3.mk 0 0 (-5)) 1 ⟨Vec3.mk 0 0 0⟩)
        (Vec3.mk 0 0 0) (Vec3.mk 0 0 (-1)) ≤ 1) ∧
    (∀ i, (Sphere.mk (Vec3.mk 0 0 (-5)) 1 ⟨Vec3.mk 0 0 0⟩).ray_intersect
        (Vec3.mk 0 0 0) (Vec3.mk 0 0 (-1)) = some i →
      i.distance = sphere_distance (Sphere.mk (Vec3.mk 0 0 (-5)) 1 ⟨Vec3.mk 0 0 0⟩)
        (Vec3.mk 0 0 0) (Vec3.mk 0 0 (-1))) ∧
    (∀ t : ℝ, sphere_distance (Sphere.mk (Vec3.mk 0 0 (-5)) 1 ⟨Vec3.mk 0 0 0⟩)
        (Vec3.mk 0 0 0) (Vec3.mk 0 0 (-1)) ≤
      ((Vec3.mk 0 0 0 + (dir_normalized (Vec3.mk 0 0 (-1))).smul t) -
        Vec3.mk 0 0 (-5)).norm)) :=
  ⟨by simp [Vec3.mk.injEq], ray_intersect_iff_close _ _ _ (by simp [Vec3.mk.injEq])⟩

/-- Claim C4: the test is a test of the infinite line, not the forward
half-ray: there is a configuration with negative `projection` (closest
approach behind the origin) where `ray_intersect` still reports a hit. -/
theorem ray_intersect_behind_origin_hit :
    ∃ (origin direction : Vec3) (s : Sphere),
      projection s origin direction < 0 ∧ (s.ray_intersect origin direction).isSome := by
  refine ⟨Vec3.mk 0 0 0, Vec3.mk 0 0 1, Sphere.mk (Vec3.mk 0 0 (-5)) 1 ⟨Vec3.mk 0 0 0⟩, ?_, ?_⟩
  · have hdn : dir_normalized (Vec3.mk 0 0 1) = Vec3.mk 0 0 1 := by
      rw [dir_normalized, normalize_mk_eval 0 0 1 1 (by norm_num) (by norm_num)]
      norm_num
    rw [projection, start_to_center, hdn]
    norm_num
  · have hdn : dir_normalized (Vec3.mk 0 0 1) = Vec3.mk 0 0 1 := by
      rw [dir_normalized, normalize_mk_eval 0 0 1 1 (by norm_num) (by norm_num)]
      norm_num
    rw [ray_intersect_eval _ _ _ (Vec3.mk 0 0 1) (Vec3.mk 0 0 (-5)) (Vec3.mk 0 0 (-5))
      1 0 ⟨Vec3.mk 0 0 0⟩ hdn rfl rfl rfl
      (by simp only [Vec3.sub_mk, Vec3.dot_mk, Vec3.smul_mk, Vec3.add_mk]; norm_num)
      (by simp only [Vec3.sub_mk, sub_self]; exact norm_mk_eval 0 0 0 0 le_rfl (by norm_num))
      (by norm_num)]
    rfl

/-- Claim C1 (refuting evaluation): two spheres hit the same ray at distances
5 and 10, yet `scene_intersect` returns the distance-10 intersection (the last
hit in the list), because both arms of the fold's inner match return the new
intersection. The code's own comment says it finds the nearest. -/
theorem scene_intersect_keeps_last_not_nearest :
    (Sphere.mk (Vec3.mk 5 0 0) 6 ⟨Vec3.mk 1 0 0⟩).ray_intersect
        (Vec3.mk 0 0 0) (Vec3.mk 0 0 (-1))
      = some ⟨Vec3.mk 0 0 0, 5, ⟨Vec3.mk 1 0 0⟩⟩ ∧
    (Sphere.mk (Vec3.mk 10 0 0) 11 ⟨Vec3.mk 0 1 0⟩).ray_intersect
        (Vec3.mk 0 0 0) (Vec3.mk 0 0 (-1))
      = some ⟨Vec3.mk 0 0 0, 10, ⟨Vec3.mk 0 1 0⟩⟩ ∧
    scene_intersect (Vec3.mk 0 0 0) (Vec3.mk 0 0 (-1))
        [Sphere.mk (Vec3.mk 5 0 0) 6 ⟨Vec3.mk 1 0 0⟩,
         Sphere.mk (Vec3.mk 10 0 0) 11 ⟨Vec3.mk 0 1 0⟩]
      = some ⟨Vec3.mk 0 0 0, 10, ⟨Vec3.mk 0 1 0⟩⟩ := by
  have hdn : dir_normalized (Vec3.mk 0 0 (-1)) = Vec3.mk 0 0 (-1) := by
    rw [dir_normalized, normalize_mk_eval 0 0 (-1) 1 (by norm_num) (by norm_num)]
    norm_num
  have hA : (Sphere.mk (Vec3.mk 5 0 0) 6 ⟨Vec3.mk 1 0 0⟩).ray_intersect
      (Vec3.mk 0 0 0) (Vec3.mk 0 0 (-1))
      = some ⟨Vec3.mk 0 0 0, 5, ⟨Vec3.mk 1 0 0⟩⟩ := by
    exact ray_intersect_eval _ _ _ (Vec3.mk 0 0 (-1)) (Vec3.mk 5 0 0) (Vec3.mk 0 0 0)
      6 5 ⟨Vec3.mk 1 0 0⟩ hdn rfl rfl rfl
      (by simp only [Vec3.sub_mk, Vec3.dot_mk, Vec3.smul_mk, Vec3.add_mk]
          norm_num [Vec3.mk.injEq])
      (by simp only [Vec3.sub_mk]
          rw [show ((0:ℝ) - 5) = -5 by norm_num, sub_self]
          exact norm_mk_eval (-5) 0 0 5 (by norm_num) (by norm_num))
      (by norm_num)
  have hB : (Sphere.mk (Vec3.mk 10 0 0) 11 ⟨Vec3.mk 0 1 0⟩).ray_intersect
      (Vec3.mk 0 0 0) (Vec3.mk 0 0 (-1))
      = some ⟨Vec3.mk 0 0 0, 10, ⟨Vec3.mk 0 1 0⟩⟩ := by
    exact ray_intersect_eval _ _ _ (Vec3.mk 0 0 (-1)) (Vec3.mk 10 0 0) (Vec3.mk 0 0 0)
      11 10 ⟨Vec3.mk 0 1 0⟩ hdn rfl rfl rfl
      (by simp only [Vec3.sub_mk, Vec3.dot_mk, Vec3.smul_mk, Vec3.add_mk]
          norm_num [Vec3.mk.injEq])
      (by simp only [Vec3.sub_mk]
          rw [show ((0:ℝ) - 10) = -10 by norm_num, sub_self]
          exact norm_mk_eval (-10) 0 0 10 (by norm_num) (by norm_num))
      (by norm_num)
  refine ⟨hA, hB, ?_⟩
  have hfold : nearest_candidate (Vec3.mk 0 0 0) (Vec3.mk 0 0 (-1))
      [Sphere.mk (Vec3.mk 5 0 0) 6 ⟨Vec3.mk 1 0 0⟩,
       Sphere.mk (Vec3.mk 10 0 0) 11 ⟨Vec3.mk 0 1 0⟩]
      = some ⟨Vec3.mk 0 0 0, 10, ⟨Vec3.mk 0 1 0⟩⟩ := by
    rw [nearest_candidate, List.foldl_cons, List.foldl_cons, List.foldl_nil]
    have h1 : nearest_step (Vec3.mk 0 0 0) (Vec3.mk 0 0 (-1)) none
        (Sphere.mk (Vec3.mk 5 0 0) 6 ⟨Vec3.mk 1 0 0⟩)
        = some ⟨Vec3.mk 0 0 0, 5, ⟨Vec3.mk 1 0 0⟩⟩ := by
      rw [nearest_step, hA]
    rw [h1, nearest_step, hB]
    simp only [ite_self]
  rw [scene_intersect, hfold]
  norm_num

/-- `nearest_step` yields `none` exactly when both the new test and the
accumulator yield `none`. -/
lemma nearest_step_none_iff (o d : Vec3) (acc : Option Intersection) (s : Sphere) :
    nearest_step o d acc s = none ↔ s.ray_intersect o d = none ∧ acc = none := by
  rw [nearest_step]
  cases hr : s.ray_intersect o d with
  | some i =>
    cases acc with
    | some a => simp
    | none => simp
  | none =>
    cases acc with
    | some a => simp
    | none => simp

/-- The fold in `scene_intersect` yields `none` exactly when the accumulator
is `none` and no sphere's test succeeds. -/
lemma foldl_nearest_none_iff (o d : Vec3) (l : List Sphere) (acc : Option Intersection) :
    l.foldl (nearest_step o d) acc = none ↔
      (acc = none ∧ ∀ s ∈ l, s.ray_intersect o d = none) := by
  induction l generalizing acc with
  | nil => simp
  | cons s l ih =>
    rw [List.foldl_cons, ih, nearest_step_none_iff]
    constructor
    · rintro ⟨⟨h1, h2⟩, h3⟩
      refine ⟨h2, ?_⟩
      intro s' hs'
      rcases List.mem_cons.mp hs' with rfl | hs'
      · exact h1
      · exact h3 s' hs'
    · rintro ⟨h1, h2⟩
      exact ⟨⟨h2 s (List.mem_cons_self s l), h1⟩,
        fun s' hs' => h2 s' (List.mem_cons_of_mem s hs')⟩

/-- The fold result is `none` exactly when no sphere's test succeeds
(vacuously, when the list is empty). -/
lemma nearest_candidate_none_iff (o d : Vec3) (spheres : List Sphere) :
    nearest_candidate o d spheres = none ↔ ∀ s ∈ spheres, s.ray_intersect o d = none := by
  rw [nearest_candidate, foldl_nearest_none_iff]
  simp

/-- Unfolding rule for `scene_intersect` when the fold retains a candidate. -/
lemma scene_intersect_some_case (o d : Vec3) (spheres : List Sphere) (j : Intersection)
    (h : nearest_candidate o d spheres = some j) :
    scene_intersect o d spheres = if j.distance < 1000 then some j else none := by
  rw [scene_intersect, h]

/-- Unfolding rule for `scene_intersect` when the fold retains nothing. -/
lemma scene_intersect_none_case (o d : Vec3) (spheres : List Sphere)
    (h : nearest_candidate o d spheres = none) :
    scene_intersect o d spheres = none := by
  rw [scene_intersect, h]

/-- Claim C2: `scene_intersect` returns `some i` exactly when the fold
retains `i` and `i.distance < 1000`; it returns `none` exactly when no
sphere's intersection test succeeds (in particular when the list is empty)
or the retained candidate's distance is at least 1000. -/
theorem scene_intersect_cutoff (o d : Vec3) (spheres : List Sphere) :
    (∀ i, scene_intersect o d spheres = some i ↔
      nearest_candidate o d spheres = some i ∧ i.distance < 1000) ∧
    (scene_intersect o d spheres = none ↔
      (∀ s ∈ spheres, s.ray_intersect o d = none) ∨
      ∃ i, nearest_candidate o d spheres = some i ∧ 1000 ≤ i.distance) := by
  constructor
  · intro i
    cases hn : nearest_candidate o d spheres with
    | some j =>
      rw [scene_intersect_some_case o d spheres j hn]
      split_ifs with h
      · constructor
        · intro h'
          obtain rfl := Option.some_inj.mp h'
          exact ⟨h', h⟩
        · rintro ⟨h', _⟩
          exact h'
      · constructor
        · intro h'
          exact absurd h' (by simp)
        · rintro ⟨h', hlt⟩
          obtain rfl := Option.some_inj.mp h'
          exact absurd hlt h
    | none =>
      rw [scene_intersect_none_case o d spheres hn]
      simp
  · cases hn : nearest_candidate o d spheres with
    | some j =>
      rw [scene_intersect_some_case o d spheres j hn]
      constructor
      · intro h'
        by_cases h : j.distance < 1000
        · rw [if_pos h] at h'
          exact absurd h' (by simp)
        · exact Or.inr ⟨j, rfl, not_lt.mp h⟩
      · intro h'
        rcases h' with h' | ⟨i, hi, hge⟩
        · have hc := (nearest_candidate_none_iff o d spheres).mpr h'
          rw [hn] at hc
          exact absurd hc (by simp)
        · obtain rfl := Option.some_inj.mp hi
          rw [if_neg (not_lt.mpr hge)]
    | none =>
      rw [scene_intersect_none_case o d spheres hn]
      constructor
      · intro _
        exact Or.inl ((nearest_candidate_none_iff o d spheres).mp hn)
      · intro _
        rfl

/-- Closed form of the diffuse contribution: the normalized direction has unit
norm, so scaling by `distance` and taking the norm yields `|distance|`. -/
lemma diffuse_closed_form (l : Light) (i : Intersection) (h : l.position ≠ i.point) :
    l.diffuse_for_intersection i = l.intensity * |i.distance| := by
  have hsub : l.pos - i.point ≠ Vec3.mk 0 0 0 := by
    intro hc
    exact h ((Vec3.sub_eq_zero_iff _ _).mp hc)
  rw [Light.diffuse_for_intersection, Vec3.norm_smul, Vec3.normalize_norm _ hsub,
    mul_one, max_eq_right (abs_nonneg _)]

/-- Claim C10: the diffuse contribution is independent of the light's
position — it equals `intensity * |distance|` whenever the light's position
differs from the hit point. -/
theorem diffuse_independent_of_position (l : Light) (i : Intersection)
    (h : l.position ≠ i.point) :
    l.diffuse_for_intersection i = l.intensity * |i.distance| :=
  diffuse_closed_form l i h

/-- Witness for C10 at a concrete light and intersection. -/
theorem diffuse_independent_of_position_witness :
    (Light.mk (Vec3.mk 1 0 0) 2).position ≠
      (Intersection.mk (Vec3.mk 0 0 0) 3 ⟨Vec3.mk 0 0 0⟩).point ∧
    (Light.mk (Vec3.mk 1 0 0) 2).diffuse_for_intersection
      ⟨Vec3.mk 0 0 0, 3, ⟨Vec3.mk 0 0 0⟩⟩ = 2 * |(3:ℝ)| :=
  ⟨by norm_num [Vec3.mk.injEq],
   diffuse_independent_of_position _ _ (by norm_num [Vec3.mk.injEq])⟩

/-- Claim C5 (counterexample): a light with negative intensity produces a
strictly negative diffuse contribution, refuting the unconditional
non-negativity of the claim. -/
theorem diffuse_negative_intensity :
    (Light.mk (Vec3.mk 1 0 0) (-1)).diffuse_for_intersection
      ⟨Vec3.mk 0 0 0, 1, ⟨Vec3.mk 0 0 0⟩⟩ < 0 := by
  rw [diffuse_closed_form _ _ (by norm_num [Vec3.mk.injEq])]
  norm_num

/-- Claim C5 (amended): for every light with non-negative intensity and every
intersection whose hit point differs from the light's position, the diffuse
contribution is `intensity * max(0, norm(direction_to_light * distance))` and
is non-negative. -/
theorem diffuse_formula_nonneg (l : Light) (i : Intersection)
    (_h : i.point ≠ l.position) (hnn : 0 ≤ l.intensity) :
    l.diffuse_for_intersection i =
      l.intensity * max 0 (((l.pos - i.point).normalize.smul i.distance).norm) ∧
    0 ≤ l.diffuse_for_intersection i := by
  refine ⟨rfl, ?_⟩
  rw [Light.diffuse_for_intersection]
  exact mul_nonneg hnn (le_max_left 0 _)

/-- Witness for the amended C5 at a concrete light and intersection. -/
theorem diffuse_formula_nonneg_witness :
    (Intersection.mk (Vec3.mk 0 0 0) 3 ⟨Vec3.mk 0 0 0⟩).point ≠
      (Light.mk (Vec3.mk 1 0 0) 2).position ∧
    (0:ℝ) ≤ 2 ∧
    ((Light.mk (Vec3.mk 1 0 0) 2).diffuse_for_intersection
        ⟨Vec3.mk 0 0 0, 3, ⟨Vec3.mk 0 0 0⟩⟩ =
      2 * max 0 ((((Light.mk (Vec3.mk 1 0 0) 2).pos -
        (Intersection.mk (Vec3.mk 0 0 0) 3 ⟨Vec3.mk 0 0 0⟩).point).normalize.smul 3).norm) ∧
     0 ≤ (Light.mk (Vec3.mk 1 0 0) 2).diffuse_for_intersection
        ⟨Vec3.mk 0 0 0, 3, ⟨Vec3.mk 0 0 0⟩⟩) :=
  ⟨by norm_num [Vec3.mk.injEq], by norm_num,
   diffuse_formula_nonneg _ _ (by norm_num [Vec3.mk.injEq]) (by norm_num)⟩

/-- Claim C6: whenever the scene intersector reports a hit, `cast_ray` adds
the summed diffuse intensity uniformly to all three channels of the
material's diffuse color (no clamping); in particular two lights each
contributing 1/10 make the fold total exactly 1/5. -/
theorem cast_ray_adds_uniform_diffuse (o d : Vec3) (spheres : List Sphere)
    (lights : List Light) (inter : Intersection)
    (h : scene_intersect o d spheres = some inter) :
    cast_ray o d spheres lights =
      some (inter.material.diffuse + Vec3.repeatv (diffuse_total lights inter)) ∧
    ∀ l1 l2 : Light,
      l1.diffuse_for_intersection inter = 1/10 →
      l2.diffuse_for_intersection inter = 1/10 →
      diffuse_total [l1, l2] inter = 1/5 := by
  constructor
  · rw [cast_ray, h]
  · intro l1 l2 h1 h2
    rw [diffuse_total, List.foldl_cons, List.foldl_cons, List.foldl_nil, h1, h2]
    norm_num

/-- Witness for C6: a concrete hit, with two concrete lights each
contributing exactly 1/10 to the diffuse total. -/
theorem cast_ray_adds_uniform_diffuse_witness :
    scene_intersect (Vec3.mk 0 0 0) (Vec3.mk 0 0 (-1))
        [Sphere.mk (Vec3.mk 3 0 (-5)) 5 ⟨Vec3.mk 0 0 0⟩]
      = some ⟨Vec3.mk 0 0 (-5), 3, ⟨Vec3.mk 0 0 0⟩⟩ ∧
    cast_ray (Vec3.mk 0 0 0) (Vec3.mk 0 0 (-1))
        [Sphere.mk (Vec3.mk 3 0 (-5)) 5 ⟨Vec3.mk 0 0 0⟩]
        [Light.mk (Vec3.mk 1 0 (-5)) (1/30), Light.mk (Vec3.mk 1 0 (-5)) (1/30)]
      = some ((Intersection.mk (Vec3.mk 0 0 (-5)) 3 ⟨Vec3.mk 0 0 0⟩).material.diffuse +
          Vec3.repeatv (diffuse_total
            [Light.mk (Vec3.mk 1 0 (-5)) (1/30), Light.mk (Vec3.mk 1 0 (-5)) (1/30)]
            ⟨Vec3.mk 0 0 (-5), 3, ⟨Vec3.mk 0 0 0⟩⟩)) ∧
    diffuse_total
        [Light.mk (Vec3.mk 1 0 (-5)) (1/30), Light.mk (Vec3.mk 1 0 (-5)) (1/30)]
        ⟨Vec3.mk 0 0 (-5), 3, ⟨Vec3.mk 0 0 0⟩⟩ = 1/5 := by
  have hdn : dir_normalized (Vec3.mk 0 0 (-1)) = Vec3.mk 0 0 (-1) := by
    rw [dir_normalized, normalize_mk_eval 0 0 (-1) 1 (by norm_num) (by norm_num)]
    norm_num
  have hr : (Sphere.mk (Vec3.mk 3 0 (-5)) 5 ⟨Vec3.mk 0 0 0⟩).ray_intersect
      (Vec3.mk 0 0 0) (Vec3.mk 0 0 (-1))
      = some ⟨Vec3.mk 0 0 (-5), 3, ⟨Vec3.mk 0 0 0⟩⟩ := by
    exact ray_intersect_eval _ _ _ (Vec3.mk 0 0 (-1)) (Vec3.mk 3 0 (-5)) (Vec3.mk 0 0 (-5))
      5 3 ⟨Vec3.mk 0 0 0⟩ hdn rfl rfl rfl
      (by simp only [Vec3.sub_mk, Vec3.dot_mk, Vec3.smul_mk, Vec3.add_mk]
          norm_num [Vec3.mk.injEq])
      (by simp only [Vec3.sub_mk]
          rw [show ((0:ℝ) - 3) = -3 by norm_num, show ((-5:ℝ) - -5) = 0 by norm_num,
            sub_self]
          exact norm_mk_eval (-3) 0 0 3 (by norm_num) (by norm_num))
      (by norm_num)
  have hcand : nearest_candidate (Vec3.mk 0 0 0) (Vec3.mk 0 0 (-1))
      [Sphere.mk (Vec3.mk 3 0 (-5)) 5 ⟨Vec3.mk 0 0 0⟩]
      = some ⟨Vec3.mk 0 0 (-5), 3, ⟨Vec3.mk 0 0 0⟩⟩ := by
    rw [nearest_candidate, List.foldl_cons, List.foldl_nil, nearest_step, hr]
  have hs : scene_intersect (Vec3.mk 0 0 0) (Vec3.mk 0 0 (-1))
      [Sphere.mk (Vec3.mk 3 0 (-5)) 5 ⟨Vec3.mk 0 0 0⟩]
      = some ⟨Vec3.mk 0 0 (-5), 3, ⟨Vec3.mk 0 0 0⟩⟩ := by
    rw [scene_intersect_some_case _ _ _ _ hcand, if_pos (by norm_num)]
  have hd : (Light.mk (Vec3.mk 1 0 (-5)) (1/30)).diffuse_for_intersection
      ⟨Vec3.mk 0 0 (-5), 3, ⟨Vec3.mk 0 0 0⟩⟩ = 1/10 := by
    rw [diffuse_closed_form _ _ (by norm_num [Vec3.mk.injEq])]
    norm_num
  exact ⟨hs,
    (cast_ray_adds_uniform_diffuse _ _ _ _ _ hs).1,
    (cast_ray_adds_uniform_diffuse _ _ _
      [Light.mk (Vec3.mk 1 0 (-5)) (1/30), Light.mk (Vec3.mk 1 0 (-5)) (1/30)] _ hs).2
      _ _ hd hd⟩

/-- Claim C7: `vec_to_rgb` maps each channel independently to the truncation
of 255 times the channel clamped to [0,1]; a channel of 1.4 goes to 255, a
channel of -0.2 goes to 0 (and 0.5 goes to 127). -/
theorem vec_to_rgb_clamp_scale :
    (∀ v : Vec3, vec_to_rgb v =
      (⌊255 * fclamp v.x 0 1⌋, ⌊255 * fclamp v.y 0 1⌋, ⌊255 * fclamp v.z 0 1⌋)) ∧
    vec_to_rgb ⟨14/10, -(2/10), 1/2⟩ = (255, 0, 127) := by
  refine ⟨fun v => rfl, ?_⟩
  rw [vec_to_rgb]
  norm_num [fclamp, min_def, max_def]

/-- Claim C8: when the generated ray for pixel `(i, j)` produces no hit, the
frame driver emits the background gradient `(j/h, i/w, (i+j)/(h+w))`
converted with the same clamp-and-scale byte conversion. -/
theorem render_pixel_background (spheres : List Sphere) (lights : List Light) (i j : ℕ)
    (h : cast_ray Vec3.zero (ray_dir i j) spheres lights = none) :
    render_pixel spheres lights i j =
      vec_to_rgb ⟨(j : ℝ) / 256, (i : ℝ) / 256, ((i : ℝ) + (j : ℝ)) / (256 + 256)⟩ := by
  rw [render_pixel, h]

/-- Witness for C8: in the empty scene the ray for pixel `(0, 0)` misses, the
background color is `(0, 0, 0)` and the byte triple is `(0, 0, 0)`. -/
theorem render_pixel_background_witness :
    cast_ray Vec3.zero (ray_dir 0 0) [] [] = none ∧
    render_pixel [] [] 0 0 =
      vec_to_rgb ⟨((0:ℕ) : ℝ) / 256, ((0:ℕ) : ℝ) / 256,
        (((0:ℕ) : ℝ) + ((0:ℕ) : ℝ)) / (256 + 256)⟩ ∧
    vec_to_rgb ⟨((0:ℕ) : ℝ) / 256, ((0:ℕ) : ℝ) / 256,
        (((0:ℕ) : ℝ) + ((0:ℕ) : ℝ)) / (256 + 256)⟩ = (0, 0, 0) := by
  have hc : cast_ray Vec3.zero (ray_dir 0 0) [] [] = none := by
    rw [cast_ray, scene_intersect_none_case _ _ _ (by rw [nearest_candidate, List.foldl_nil])]
  refine ⟨hc, render_pixel_background [] [] 0 0 hc, ?_⟩
  rw [vec_to_rgb]
  norm_num [fclamp, min_def, max_def]

/-- Claim C9: rendering is deterministic — the pixel buffer is a pure
function of the scene, so equal scenes yield byte-identical buffers. -/
theorem render_deterministic (s1 s2 : List Sphere) (l1 l2 : List Light)
    (hs : s1 = s2) (hl : l1 = l2) : render_buffer s1 l1 = render_buffer s2 l2 := by
  rw [hs, hl]

/-- Witness for C9: two runs on the empty scene agree. -/
theorem render_deterministic_witness : render_buffer [] [] = render_buffer [] [] :=
  render_deterministic [] [] [] [] rfl rfl
